import Mathlib

/-!
Verification of the audio timeline composition of `src/app.py`
(the active `process_audio_files`, lines 286-343), which assembles an
audiobook opening from a background-music bed, a swoosh transition effect
and a TTS speech clip using pydub.

Modelling conventions:
* An `AudioSegment` is modelled as `Seg`, a list of integer samples at one
  sample per millisecond (mono, frame rate 1000 Hz), so pydub's
  millisecond arithmetic and its frame arithmetic coincide exactly.
* Samples are 16-bit (pydub `sample_width = 2`), so audioop saturates at
  `[-32768, 32767]`.
* Python float arithmetic is idealised as real arithmetic; audioop's
  `fbound` (clamp into the sample range, then round towards minus
  infinity) is modelled by `fbound`.
* The pydub operations the source uses are modelled: `seg[a:b]`
  (millisecond slicing, `Seg.msSlice`), `seg - db` (`apply_gain` via
  `audioop.mul`, `Seg.applyGain`), `base.overlay(top)` (`audioop.add`
  with truncation of the top to the base, `Seg.overlay`), `seg1 + seg2`
  (concatenation, `Seg.append`) and `seg.fade_out(d)` (pydub `fade` with
  `to_gain = -120`, `end = inf`; the coarse one-gain-step-per-millisecond
  branch is taken because the source always passes `duration = 3000 > 100`;
  `Seg.fade_out`).
-/

/-- audioop's `fbound`: clamp a floating result into the 16-bit sample
range, rounding towards minus infinity (values above `32767` become
`32767`, values below `-32767` become `-32768`, everything else is
floored). -/
noncomputable def fbound (val : ℝ) : ℤ :=
  if 32767 < val then 32767
  else if val < -32767 then -32768
  else ⌊val⌋

/-- pydub `db_to_float(db)` with `using_amplitude=True`: `10 ** (db / 20)`. -/
noncomputable def db_to_float (db : ℝ) : ℝ := (10 : ℝ) ^ (db / 20)

/-- audioop `mul` on one 16-bit sample: multiply it by a floating factor
and `fbound` the result. -/
noncomputable def mulSample (f : ℝ) (x : ℤ) : ℤ := fbound (f * (x : ℝ))

/-- audioop `add` on one pair of 16-bit samples: integer sum with
saturation (`fbound` applied to an integer value). -/
def addClamp (x y : ℤ) : ℤ :=
  if 32767 < x + y then 32767
  else if x + y < -32767 then -32768
  else x + y

/-- Normalisation of one millisecond slice index of a buffer of length
`L`, following pydub `AudioSegment.__getitem__` (slice case: clamp above
by `len(self)`, then wrap a negative index once by `len(self)`) composed
with `get_sample_slice`'s `bounded` (clamp into `[0, max_val]`). -/
def normIdx (L : ℕ) (v : ℤ) : ℕ :=
  let v1 : ℤ := min v (L : ℤ)
  let v2 : ℤ := if v1 < 0 then v1 + (L : ℤ) else v1
  (min v2 (L : ℤ)).toNat

/-- A decoded pydub `AudioSegment`: one 16-bit sample per millisecond. -/
structure Seg where
  samples : List ℤ
deriving DecidableEq

/-- pydub `len(seg)`: duration in milliseconds (= number of samples in
this model). -/
def Seg.length (s : Seg) : ℕ := s.samples.length

/-- pydub millisecond slicing `seg[a:b]`. Out-of-range bounds are clamped
(never an error), exactly as in pydub. -/
def Seg.msSlice (s : Seg) (a b : ℤ) : Seg :=
  ⟨(s.samples.drop (normIdx s.samples.length a)).take
      (normIdx s.samples.length b - normIdx s.samples.length a)⟩

/-- pydub `seg.apply_gain(db)` (the source spells it `seg - (-db)`):
`audioop.mul` of every sample by `db_to_float db`. -/
noncomputable def Seg.applyGain (s : Seg) (db : ℝ) : Seg :=
  ⟨s.samples.map (mulSample (db_to_float db))⟩

/-- pydub `base.overlay(top, position=pos)` with the default
`loop=False, times=1`: the top is truncated to what fits in the base
after `pos`, the overlapped samples are summed with saturation
(`audioop.add`), and the merged buffer keeps the base's length. -/
def Seg.overlay (base top : Seg) (pos : ℕ) : Seg :=
  let remaining := base.samples.length - pos
  let k := min top.samples.length remaining
  ⟨base.samples.take pos
      ++ List.zipWith addClamp ((base.samples.drop pos).take k) (top.samples.take k)
      ++ base.samples.drop (pos + k)⟩

/-- pydub `seg1 + seg2`: concatenation of the sample data. -/
def Seg.append (a b : Seg) : Seg := ⟨a.samples ++ b.samples⟩

/-- The volume factor pydub `fade` applies to the chunk `i` milliseconds
into a fade of `d` milliseconds from `from_gain = 0` down to
`to_gain = -120`: `from_power + (gain_delta / duration) * i`. -/
noncomputable def fadeVol (d i : ℕ) : ℝ :=
  db_to_float 0 + (db_to_float (-120) - db_to_float 0) / d * i

/-- pydub `seg.fade_out(d)`, i.e. `fade(to_gain=-120, end=float(inf),
duration=d)`: `end` clamps to `len(seg)`, `start = end - d` (possibly
negative), samples before `start` are kept unscaled, then each
millisecond chunk `seg[start+i : start+i+1]` is scaled by the linearly
interpolated volume, and finally `seg[end:]` (always empty here) is
appended. The source only calls this with `d = 3000`, so the coarse
`duration > 100` branch is the one modelled. -/
noncomputable def Seg.fade_out (s : Seg) (d : ℕ) : Seg :=
  let L : ℤ := s.samples.length
  let start : ℤ := L - d
  ⟨(if 0 < start then (s.msSlice 0 start).samples else [])
      ++ (List.map (fun (i : ℕ) => ((s.msSlice (start + (i : ℤ)) (start + (i : ℤ) + 1)).samples.map
            (mulSample (fadeVol d i)))) (List.range d)).flatten
      ++ s.samples.drop s.samples.length⟩

/-- The active `process_audio_files` body (src/app.py lines 286-343) after
the three sources are decoded: keeps the first 5000 ms of the bed at
original volume, attenuates the swoosh by 5 dB, attenuates the bed under
the swoosh, under the speech, for a 2500 ms post-roll and for a 3000 ms
fade-out region by 10 dB, overlays swoosh and speech onto their bed
slices, concatenates everything and fades the last region out. Encoding
to MP3 is a boundary concern and out of scope. -/
noncomputable def process_audio (bgm tts swoosh0 : Seg) : Seg :=
  let initial_bgm := bgm.msSlice 0 5000
  let swoosh := swoosh0.applyGain (-5)
  let bgm_during_swoosh := (bgm.msSlice 5000 (5000 + (swoosh.length : ℤ))).applyGain (-10)
  let bgm_during_tts := (bgm.msSlice (5000 + (swoosh.length : ℤ))
      (5000 + (swoosh.length : ℤ) + (tts.length : ℤ))).applyGain (-10)
  let post_tts_duration : ℤ := 2500
  let fade_duration : ℕ := 3000
  let total_length : ℤ := 5000 + (swoosh.length : ℤ) + (tts.length : ℤ)
  let bgm_after_tts := (bgm.msSlice total_length (total_length + post_tts_duration)).applyGain (-10)
  let bgm_fadeout := ((bgm.msSlice (total_length + post_tts_duration)
      (total_length + post_tts_duration + (fade_duration : ℤ))).applyGain (-10)).fade_out fade_duration
  let swoosh_segment := bgm_during_swoosh.overlay swoosh 0
  let tts_with_bgm := bgm_during_tts.overlay tts 0
  (((initial_bgm.append swoosh_segment).append tts_with_bgm).append bgm_after_tts).append bgm_fadeout

/-- The decode-and-compose boundary of `process_audio_files`: the three
inputs are loaded inside one `try`; if any of them is missing or
undecodable (for instance the swoosh path is `None`), the raised
exception is caught by the blanket `except` and the function returns
`None` instead of any composed buffer. -/
noncomputable def process_audio_files (bgm tts swoosh : Option Seg) : Option Seg :=
  match bgm, tts, swoosh with
  | some b, some t, some s => some (process_audio b t s)
  | _, _, _ => none

/-- The bed slice boundaries (start, stop in milliseconds) that
`process_audio_files` computes at lines 294-311 — the implicit timeline
plan: lead-in, bed-under-swoosh, bed-under-speech, post-roll, fade-out.
It is a pure function of the swoosh and speech lengths together with the
fixed recipe constants 5000 / 2500 / 3000. -/
def plan_offsets (Ls Lt : ℕ) : List (ℤ × ℤ) :=
  [(0, 5000),
   (5000, 5000 + (Ls : ℤ)),
   (5000 + (Ls : ℤ), 5000 + (Ls : ℤ) + (Lt : ℤ)),
   (5000 + (Ls : ℤ) + (Lt : ℤ), 5000 + (Ls : ℤ) + (Lt : ℤ) + 2500),
   (5000 + (Ls : ℤ) + (Lt : ℤ) + 2500, 5000 + (Ls : ℤ) + (Lt : ℤ) + 2500 + 3000)]

/-- Well-formedness of a buffer: every sample is a genuine 16-bit value,
as holds for every buffer pydub decodes or produces through audioop. -/
def Seg.wf (s : Seg) : Prop := ∀ x ∈ s.samples, -32768 ≤ x ∧ x ≤ 32767

instance (s : Seg) : Decidable s.wf := by
  unfold Seg.wf
  infer_instance

/-! Basic facts about the modelled pydub operations. -/

lemma normIdx_le (L : ℕ) (v : ℤ) : normIdx L v ≤ L := by
  simp only [normIdx, min_def]
  split_ifs <;> omega

lemma normIdx_eq_of_le (L : ℕ) (v : ℤ) (h0 : 0 ≤ v) (h1 : v ≤ (L : ℤ)) :
    (normIdx L v : ℤ) = v := by
  simp only [normIdx, min_def]
  split_ifs <;> omega

lemma normIdx_eq_self_of_ge (L : ℕ) (v : ℤ) (h : (L : ℤ) ≤ v) : normIdx L v = L := by
  simp only [normIdx, min_def]
  split_ifs <;> omega

lemma normIdx_of_nonneg (L : ℕ) (v : ℤ) (h0 : 0 ≤ v) :
    normIdx L v = min v.toNat L := by
  simp only [normIdx, min_def]
  split_ifs <;> omega

@[simp] lemma Seg.length_applyGain (s : Seg) (db : ℝ) :
    (s.applyGain db).length = s.length := by
  simp [Seg.applyGain, Seg.length]

@[simp] lemma Seg.length_append (a b : Seg) :
    (a.append b).length = a.length + b.length := by
  simp [Seg.append, Seg.length]

lemma Seg.length_msSlice (s : Seg) (a b : ℤ) :
    (s.msSlice a b).length
      = normIdx s.samples.length b - normIdx s.samples.length a := by
  have hb := normIdx_le s.samples.length b
  simp only [Seg.msSlice, Seg.length, List.length_take, List.length_drop]
  omega

@[simp] lemma Seg.length_overlay (base top : Seg) (pos : ℕ) :
    (base.overlay top pos).length = base.length := by
  simp only [Seg.overlay, Seg.length, List.length_append, List.length_zipWith,
    List.length_take, List.length_drop]
  omega

lemma Seg.msSlice_length_of_bounds (s : Seg) (a b : ℤ)
    (h0 : 0 ≤ a) (hab : a ≤ b) (hb : b ≤ (s.length : ℤ)) :
    ((s.msSlice a b).length : ℤ) = b - a := by
  have ha' : (normIdx s.samples.length a : ℤ) = a :=
    normIdx_eq_of_le _ _ h0 (le_trans hab hb)
  have hb' : (normIdx s.samples.length b : ℤ) = b :=
    normIdx_eq_of_le _ _ (le_trans h0 hab) hb
  rw [Seg.length_msSlice]
  omega

lemma Seg.msSlice_length_nonneg_bounds (s : Seg) (a b : ℤ) (h0 : 0 ≤ a) (hab : a ≤ b) :
    (s.msSlice a b).length = min b.toNat s.length - min a.toNat s.length := by
  rw [Seg.length_msSlice, normIdx_of_nonneg _ _ h0, normIdx_of_nonneg _ _ (le_trans h0 hab)]
  rfl

@[simp] lemma Seg.append_samples (a b : Seg) :
    (a.append b).samples = a.samples ++ b.samples := rfl

lemma Seg.fade_out_nil (d : ℕ) : (Seg.mk []).fade_out d = Seg.mk [] := by
  have h : ¬ (0 : ℤ) < ((([] : List ℤ).length : ℕ) : ℤ) - d := by simp
  simp [Seg.fade_out, Seg.msSlice, h, List.flatten_eq_nil_iff]

lemma Seg.fade_out_of_empty (s : Seg) (d : ℕ) (h : s.length = 0) :
    s.fade_out d = Seg.mk [] := by
  obtain ⟨l⟩ := s
  simp only [Seg.length, List.length_eq_zero] at h
  subst h
  exact Seg.fade_out_nil d

lemma Seg.length_msSlice_one (s : Seg) (a : ℤ) (h0 : 0 ≤ a)
    (h1 : a + 1 ≤ (s.samples.length : ℤ)) :
    (s.msSlice a (a + 1)).samples.length = 1 := by
  have h2 := normIdx_eq_of_le s.samples.length a h0 (by omega)
  have h3 := normIdx_eq_of_le s.samples.length (a + 1) (by omega) h1
  have h4 := Seg.length_msSlice s a (a + 1)
  simp only [Seg.length] at h4
  omega

lemma sum_map_length_one {α : Type} (F : ℕ → List α) :
    ∀ n : ℕ, (∀ i, i < n → (F i).length = 1) →
      (List.map (List.length ∘ F) (List.range n)).sum = n := by
  intro n
  induction n with
  | zero => intro _; simp
  | succ k ih =>
    intro h
    rw [List.range_succ, List.map_append, List.sum_append,
      ih (fun i hi => h i (by omega))]
    simp [Function.comp_apply, h k (by omega)]

lemma Seg.length_fade_out_full (s : Seg) (d : ℕ) (h : s.length = d) :
    (s.fade_out d).length = d := by
  obtain ⟨l⟩ := s
  simp only [Seg.length] at h
  subst h
  have hne : ¬ (0 : ℤ) < (l.length : ℤ) - (l.length : ℤ) := by omega
  simp only [Seg.fade_out, Seg.length, if_neg hne, List.nil_append,
    List.length_append, List.length_flatten, List.map_map, List.length_drop]
  rw [Nat.sub_self, Nat.add_zero]
  exact sum_map_length_one _ _ (fun i hi => by
    simp only [Function.comp_apply, List.length_map]
    exact Seg.length_msSlice_one _ _ (by omega) (by dsimp only; omega))

lemma Seg.overlay_samples_of_eq_length (base top : Seg) (h : base.length = top.length) :
    (base.overlay top 0).samples = List.zipWith addClamp base.samples top.samples := by
  simp only [Seg.length] at h
  have hk : min top.samples.length (base.samples.length - 0) = base.samples.length := by omega
  simp only [Seg.overlay, hk, List.take_zero, List.drop_zero, List.nil_append,
    List.take_length, Nat.zero_add, List.drop_length, List.append_nil]
  rw [h, List.take_length]

lemma Seg.applyGain_getElem? (s : Seg) (db : ℝ) (i : ℕ) :
    (s.applyGain db).samples[i]? = s.samples[i]?.map (mulSample (db_to_float db)) := by
  simp [Seg.applyGain]

lemma Seg.msSlice_getElem? (s : Seg) (a b : ℤ) (h0 : 0 ≤ a) (hab : a ≤ b)
    (hb : b ≤ (s.samples.length : ℤ)) (i : ℕ) (hi : (i : ℤ) < b - a) :
    (s.msSlice a b).samples[i]? = s.samples[a.toNat + i]? := by
  have ha' := normIdx_eq_of_le s.samples.length a h0 (le_trans hab hb)
  have hb' := normIdx_eq_of_le s.samples.length b (le_trans h0 hab) hb
  simp only [Seg.msSlice]
  rw [List.getElem?_take_of_lt (by omega), List.getElem?_drop]
  congr 1
  omega

lemma zipWith_getElem?_some {α β γ : Type} (f : α → β → γ) (as : List α) (bs : List β)
    (i : ℕ) (a : α) (b : β) (ha : as[i]? = some a) (hb : bs[i]? = some b) :
    (List.zipWith f as bs)[i]? = some (f a b) := by
  rw [List.getElem?_zipWith, ha, hb]

@[simp] lemma Seg.applyGain_samples (s : Seg) (db : ℝ) :
    (s.applyGain db).samples = s.samples.map (mulSample (db_to_float db)) := rfl

lemma getElem?_eq_some_getD (l : List ℤ) (n : ℕ) (h : n < l.length) :
    l[n]? = some (l.getD n 0) := by
  rw [List.getElem?_eq_getElem h, List.getD_eq_getElem?_getD, List.getElem?_eq_getElem h]
  rfl

/-- In the effect region (output milliseconds `[5000, 5000 + len(swoosh))`),
the output sample is the saturating sum of the 10 dB-attenuated bed sample
and the 5 dB-attenuated swoosh sample. -/
lemma process_getElem?_effect (bgm tts swoosh : Seg)
    (hbed : 5000 + swoosh.length + tts.length + 5500 ≤ bgm.length)
    (i : ℕ) (hi : i < swoosh.length) :
    (process_audio bgm tts swoosh).samples[5000 + i]?
      = some (addClamp (mulSample (db_to_float (-10)) (bgm.samples.getD (5000 + i) 0))
          (mulSample (db_to_float (-5)) (swoosh.samples.getD i 0))) := by
  have hbed' : 5000 + swoosh.samples.length + tts.samples.length + 5500
      ≤ bgm.samples.length := hbed
  have hi' : i < swoosh.samples.length := hi
  have hA : (bgm.msSlice 0 5000).samples.length = 5000 := by
    have h := Seg.msSlice_length_of_bounds bgm 0 5000 (by norm_num) (by norm_num)
      (by simp only [Seg.length]; omega)
    simp only [Seg.length] at h
    omega
  have hB0 : (bgm.msSlice 5000 (5000 + (swoosh.samples.length : ℤ))).samples.length
      = swoosh.samples.length := by
    have h := Seg.msSlice_length_of_bounds bgm 5000 (5000 + (swoosh.samples.length : ℤ))
      (by norm_num) (by omega) (by simp only [Seg.length]; omega)
    simp only [Seg.length] at h
    omega
  have hX : (Seg.applyGain (Seg.msSlice bgm 5000 (5000 + (swoosh.samples.length : ℤ))) (-10)).length
      = (Seg.applyGain swoosh (-5)).length := by
    simp only [Seg.length, Seg.applyGain_samples, List.length_map]
    exact hB0
  have hvA : (List.map (mulSample (db_to_float (-10)))
        (bgm.msSlice 5000 (5000 + (swoosh.samples.length : ℤ))).samples)[i]?
      = some (mulSample (db_to_float (-10)) (bgm.samples.getD (5000 + i) 0)) := by
    rw [List.getElem?_map, Seg.msSlice_getElem? bgm 5000 (5000 + (swoosh.samples.length : ℤ))
      (by norm_num) (by omega) (by omega) i (by omega)]
    rw [show ((5000 : ℤ)).toNat = 5000 from rfl, getElem?_eq_some_getD _ _ (by omega)]
    rfl
  have hvB : (List.map (mulSample (db_to_float (-5))) swoosh.samples)[i]?
      = some (mulSample (db_to_float (-5)) (swoosh.samples.getD i 0)) := by
    rw [List.getElem?_map, getElem?_eq_some_getD _ _ hi']
    rfl
  simp only [process_audio, Seg.append_samples, Seg.applyGain_samples, List.length_map,
    Seg.length, List.append_assoc]
  rw [Seg.overlay_samples_of_eq_length _ _ hX]
  simp only [Seg.applyGain_samples]
  rw [List.getElem?_append_right (by omega), hA, Nat.add_sub_cancel_left]
  rw [List.getElem?_append_left (by
    simp only [List.length_zipWith, List.length_map, hB0]
    omega)]
  rw [zipWith_getElem?_some _ _ _ _ _ _ hvA hvB]

/-- In the speech region (output milliseconds
`[5000 + len(swoosh), 5000 + len(swoosh) + len(tts))`), the output sample
is the saturating sum of the 10 dB-attenuated bed sample and the
unmodified TTS sample. -/
lemma process_getElem?_speech (bgm tts swoosh : Seg)
    (hbed : 5000 + swoosh.length + tts.length + 5500 ≤ bgm.length)
    (i : ℕ) (hi : i < tts.length) :
    (process_audio bgm tts swoosh).samples[5000 + swoosh.length + i]?
      = some (addClamp
          (mulSample (db_to_float (-10)) (bgm.samples.getD (5000 + swoosh.length + i) 0))
          (tts.samples.getD i 0)) := by
  have hbed' : 5000 + swoosh.samples.length + tts.samples.length + 5500
      ≤ bgm.samples.length := hbed
  have hi' : i < tts.samples.length := hi
  have hA : (bgm.msSlice 0 5000).samples.length = 5000 := by
    have h := Seg.msSlice_length_of_bounds bgm 0 5000 (by norm_num) (by norm_num)
      (by simp only [Seg.length]; omega)
    simp only [Seg.length] at h
    omega
  have hB0 : (bgm.msSlice 5000 (5000 + (swoosh.samples.length : ℤ))).samples.length
      = swoosh.samples.length := by
    have h := Seg.msSlice_length_of_bounds bgm 5000 (5000 + (swoosh.samples.length : ℤ))
      (by norm_num) (by omega) (by simp only [Seg.length]; omega)
    simp only [Seg.length] at h
    omega
  have hC0 : (bgm.msSlice (5000 + (swoosh.samples.length : ℤ))
        (5000 + (swoosh.samples.length : ℤ) + (tts.samples.length : ℤ))).samples.length
      = tts.samples.length := by
    have h := Seg.msSlice_length_of_bounds bgm (5000 + (swoosh.samples.length : ℤ))
      (5000 + (swoosh.samples.length : ℤ) + (tts.samples.length : ℤ))
      (by omega) (by omega) (by simp only [Seg.length]; omega)
    simp only [Seg.length] at h
    omega
  have hX : (Seg.applyGain (Seg.msSlice bgm 5000 (5000 + (swoosh.samples.length : ℤ))) (-10)).length
      = (Seg.applyGain swoosh (-5)).length := by
    simp only [Seg.length, Seg.applyGain_samples, List.length_map]
    exact hB0
  have hX2 : (Seg.applyGain (Seg.msSlice bgm (5000 + (swoosh.samples.length : ℤ))
        (5000 + (swoosh.samples.length : ℤ) + (tts.samples.length : ℤ))) (-10)).length
      = tts.length := by
    simp only [Seg.length, Seg.applyGain_samples, List.length_map]
    exact hC0
  have hvC : (List.map (mulSample (db_to_float (-10)))
        (bgm.msSlice (5000 + (swoosh.samples.length : ℤ))
          (5000 + (swoosh.samples.length : ℤ) + (tts.samples.length : ℤ))).samples)[i]?
      = some (mulSample (db_to_float (-10))
          (bgm.samples.getD (5000 + swoosh.samples.length + i) 0)) := by
    rw [List.getElem?_map, Seg.msSlice_getElem? bgm (5000 + (swoosh.samples.length : ℤ))
      (5000 + (swoosh.samples.length : ℤ) + (tts.samples.length : ℤ))
      (by omega) (by omega) (by omega) i (by omega)]
    rw [(by omega : (5000 + (swoosh.samples.length : ℤ)).toNat = 5000 + swoosh.samples.length),
      getElem?_eq_some_getD _ _ (by omega)]
    rfl
  have hvD : tts.samples[i]? = some (tts.samples.getD i 0) :=
    getElem?_eq_some_getD _ _ hi'
  simp only [process_audio, Seg.append_samples, Seg.applyGain_samples, List.length_map,
    Seg.length, List.append_assoc]
  rw [Seg.overlay_samples_of_eq_length _ _ hX, Seg.overlay_samples_of_eq_length _ _ hX2]
  simp only [Seg.applyGain_samples]
  rw [List.getElem?_append_right (by omega), hA,
    (by omega : 5000 + swoosh.samples.length + i - 5000 = swoosh.samples.length + i)]
  have hBlen : (List.zipWith addClamp
      (List.map (mulSample (db_to_float (-10)))
        (bgm.msSlice 5000 (5000 + (swoosh.samples.length : ℤ))).samples)
      (List.map (mulSample (db_to_float (-5))) swoosh.samples)).length
      = swoosh.samples.length := by
    simp only [List.length_zipWith, List.length_map, hB0]
    omega
  rw [List.getElem?_append_right (by omega), hBlen, Nat.add_sub_cancel_left]
  rw [List.getElem?_append_left (by
    simp only [List.length_zipWith, List.length_map, hC0]
    omega)]
  rw [zipWith_getElem?_some _ _ _ _ _ _ hvC hvD]

/-! Facts about the gain factors and audioop rounding. -/

lemma db_to_float_pos (db : ℝ) : 0 < db_to_float db :=
  Real.rpow_pos_of_pos (by norm_num) _

lemma db_to_float_lt_one (db : ℝ) (h : db < 0) : db_to_float db < 1 :=
  Real.rpow_lt_one_of_one_lt_of_neg (by norm_num)
    (div_neg_of_neg_of_pos h (by norm_num))

lemma db_to_float_neg10_le_half : db_to_float (-10) ≤ 1 / 2 := by
  have h1 : db_to_float (-10) = ((10 : ℝ) ^ ((1 : ℝ) / 2))⁻¹ := by
    unfold db_to_float
    rw [show ((-10) : ℝ) / 20 = -(1 / 2) by norm_num, Real.rpow_neg (by norm_num)]
  have h2 : (2 : ℝ) ≤ (10 : ℝ) ^ ((1 : ℝ) / 2) := by
    rw [show ((1 : ℝ) / 2) = (1 / 2 : ℝ) from rfl, ← Real.sqrt_eq_rpow]
    exact (Real.le_sqrt (by norm_num) (by norm_num)).mpr (by norm_num)
  rw [h1]
  calc ((10 : ℝ) ^ ((1 : ℝ) / 2))⁻¹ ≤ (2 : ℝ)⁻¹ := by
        apply inv_anti₀ (by norm_num) h2
    _ = 1 / 2 := by norm_num

lemma db_to_float_sq : db_to_float (-10) * db_to_float (-10) = db_to_float (-20) := by
  unfold db_to_float
  rw [← Real.rpow_add (by norm_num)]
  norm_num

lemma fbound_eq_floor (v : ℝ) (h1 : v ≤ 32767) (h2 : -32767 ≤ v) : fbound v = ⌊v⌋ := by
  unfold fbound
  rw [if_neg (by linarith), if_neg (by linarith)]

lemma fbound_mem (v : ℝ) : -32768 ≤ fbound v ∧ fbound v ≤ 32767 := by
  unfold fbound
  split_ifs with h1 h2
  · omega
  · omega
  · constructor
    · have h3 : ((-32767 : ℤ) : ℝ) ≤ v := by push_cast; linarith
      have h4 := Int.le_floor.mpr h3
      omega
    · have h5 : (⌊v⌋ : ℝ) ≤ 32767 := le_trans (Int.floor_le v) (le_of_not_lt h1)
      have h6 : ⌊v⌋ ≤ (32767 : ℤ) := by exact_mod_cast h5
      omega

lemma mulSample_zero (f : ℝ) : mulSample f 0 = 0 := by
  unfold mulSample fbound
  norm_num

lemma addClamp_zero (x : ℤ) (h1 : -32768 ≤ x) (h2 : x ≤ 32767) : addClamp x 0 = x := by
  unfold addClamp
  split_ifs <;> omega

/-- Applying the 10 dB attenuation twice to one 16-bit sample lands within
one least-significant amplitude step of applying 20 dB once. -/
lemma mulSample_twice_close (s : ℤ) (h1 : -32768 ≤ s) (h2 : s ≤ 32767) :
    |mulSample (db_to_float (-10)) (mulSample (db_to_float (-10)) s)
      - mulSample (db_to_float (-20)) s| ≤ 1 := by
  have hf0 : 0 < db_to_float (-10) := db_to_float_pos _
  have hfh : db_to_float (-10) ≤ 1 / 2 := db_to_float_neg10_le_half
  have hsq := db_to_float_sq
  set f := db_to_float (-10) with hf
  have hs1 : (s : ℝ) ≤ 32767 := by exact_mod_cast h2
  have hs2 : (-32768 : ℝ) ≤ (s : ℝ) := by exact_mod_cast h1
  have hb1 : f * (s : ℝ) ≤ 32767 := by nlinarith
  have hb2 : (-32767 : ℝ) ≤ f * (s : ℝ) := by nlinarith
  unfold mulSample
  rw [← hsq, fbound_eq_floor _ hb1 hb2]
  set a := ⌊f * (s : ℝ)⌋ with ha
  have ha1 : (a : ℝ) ≤ f * (s : ℝ) := Int.floor_le _
  have ha2 : f * (s : ℝ) < (a : ℝ) + 1 := Int.lt_floor_add_one _
  have hfa1 : f * (a : ℝ) ≤ 32767 := by nlinarith
  have hfa2 : (-32767 : ℝ) ≤ f * (a : ℝ) := by nlinarith
  have hffs1 : f * f * (s : ℝ) ≤ 32767 := by nlinarith
  have hffs2 : (-32767 : ℝ) ≤ f * f * (s : ℝ) := by nlinarith
  rw [fbound_eq_floor _ hfa1 hfa2, fbound_eq_floor _ hffs1 hffs2]
  have k1 : ⌊f * (a : ℝ)⌋ ≤ ⌊f * f * (s : ℝ)⌋ := Int.floor_le_floor (by nlinarith)
  have k2 : ⌊f * f * (s : ℝ)⌋ - 1 ≤ ⌊f * (a : ℝ)⌋ := by
    have h4 : f * f * (s : ℝ) - ((1 : ℤ) : ℝ) ≤ f * (a : ℝ) := by push_cast; nlinarith
    have h5 := Int.floor_le_floor h4
    rw [Int.floor_sub_int] at h5
    exact h5
  rw [abs_le]
  constructor <;> omega

/-- With a long-enough bed, every planned bed region gets its full nominal
duration, and the composed output length is their sum. -/
lemma length_process_audio_full (bgm tts swoosh : Seg)
    (hbed : 5000 + swoosh.length + tts.length + 2500 + 3000 ≤ bgm.length) :
    (process_audio bgm tts swoosh).length
      = 5000 + swoosh.length + tts.length + 2500 + 3000 := by
  have e1 : (bgm.msSlice 0 5000).length = 5000 := by
    have h := Seg.msSlice_length_of_bounds bgm 0 5000 (by norm_num) (by norm_num) (by omega)
    omega
  have e2 : (bgm.msSlice 5000 (5000 + (swoosh.length : ℤ))).length = swoosh.length := by
    have h := Seg.msSlice_length_of_bounds bgm 5000 (5000 + (swoosh.length : ℤ))
      (by norm_num) (by omega) (by omega)
    omega
  have e3 : (bgm.msSlice (5000 + (swoosh.length : ℤ))
      (5000 + (swoosh.length : ℤ) + (tts.length : ℤ))).length = tts.length := by
    have h := Seg.msSlice_length_of_bounds bgm (5000 + (swoosh.length : ℤ))
      (5000 + (swoosh.length : ℤ) + (tts.length : ℤ)) (by omega) (by omega) (by omega)
    omega
  have e4 : (bgm.msSlice (5000 + (swoosh.length : ℤ) + (tts.length : ℤ))
      (5000 + (swoosh.length : ℤ) + (tts.length : ℤ) + 2500)).length = 2500 := by
    have h := Seg.msSlice_length_of_bounds bgm (5000 + (swoosh.length : ℤ) + (tts.length : ℤ))
      (5000 + (swoosh.length : ℤ) + (tts.length : ℤ) + 2500) (by omega) (by omega) (by omega)
    omega
  have e5 : (((bgm.msSlice (5000 + (swoosh.length : ℤ) + (tts.length : ℤ) + 2500)
      (5000 + (swoosh.length : ℤ) + (tts.length : ℤ) + 2500 + ((3000 : ℕ) : ℤ))).applyGain
        (-10)).fade_out 3000).length = 3000 := by
    apply Seg.length_fade_out_full
    rw [Seg.length_applyGain]
    have h := Seg.msSlice_length_of_bounds bgm
      (5000 + (swoosh.length : ℤ) + (tts.length : ℤ) + 2500)
      (5000 + (swoosh.length : ℤ) + (tts.length : ℤ) + 2500 + ((3000 : ℕ) : ℤ))
      (by omega) (by omega) (by omega)
    omega
  simp only [process_audio, Seg.length_append, Seg.length_overlay, Seg.length_applyGain,
    e1, e2, e3, e4, e5]

/-- With a bed that ends no later than the end of the planned post-roll,
every region slice silently clamps at the end of the bed: the composition
still succeeds and simply returns a buffer exactly as long as the bed. -/
lemma length_process_audio_short (bgm tts swoosh : Seg)
    (hbed : bgm.length ≤ 5000 + swoosh.length + tts.length + 2500) :
    (process_audio bgm tts swoosh).length = bgm.length := by
  have r1 := Seg.msSlice_length_nonneg_bounds bgm 0 5000 (by norm_num) (by norm_num)
  have r2 := Seg.msSlice_length_nonneg_bounds bgm 5000 (5000 + (swoosh.length : ℤ))
    (by norm_num) (by omega)
  have r3 := Seg.msSlice_length_nonneg_bounds bgm (5000 + (swoosh.length : ℤ))
    (5000 + (swoosh.length : ℤ) + (tts.length : ℤ)) (by omega) (by omega)
  have r4 := Seg.msSlice_length_nonneg_bounds bgm
    (5000 + (swoosh.length : ℤ) + (tts.length : ℤ))
    (5000 + (swoosh.length : ℤ) + (tts.length : ℤ) + 2500) (by omega) (by omega)
  have r5 : (((bgm.msSlice (5000 + (swoosh.length : ℤ) + (tts.length : ℤ) + 2500)
      (5000 + (swoosh.length : ℤ) + (tts.length : ℤ) + 2500 + ((3000 : ℕ) : ℤ))).applyGain
        (-10)).fade_out 3000).length = 0 := by
    rw [Seg.fade_out_of_empty]
    · rfl
    · rw [Seg.length_applyGain]
      have h := Seg.msSlice_length_nonneg_bounds bgm
        (5000 + (swoosh.length : ℤ) + (tts.length : ℤ) + 2500)
        (5000 + (swoosh.length : ℤ) + (tts.length : ℤ) + 2500 + ((3000 : ℕ) : ℤ))
        (by omega) (by omega)
      omega
  simp only [process_audio, Seg.length_append, Seg.length_overlay, Seg.length_applyGain, r5]
  omega

/-! The claims. -/

/-- C1: for every valid set of inputs (bed long enough, effect and speech
non-empty), the duration of the composed output equals exactly
lead_in (5000 ms) + duration(effect) + duration(speech) +
post_roll (2500 ms) + fade_out (3000 ms). -/
theorem C1_compose_duration_exact (bgm tts swoosh : Seg)
    (hbed : 5000 + swoosh.length + tts.length + 2500 + 3000 ≤ bgm.length)
    (hs : swoosh.length ≠ 0) (ht : tts.length ≠ 0) :
    (process_audio bgm tts swoosh).length
      = 5000 + swoosh.length + tts.length + 2500 + 3000 :=
  length_process_audio_full bgm tts swoosh hbed

theorem C1_compose_duration_exact_witness :
    (process_audio (Seg.mk (List.replicate 10502 0)) (Seg.mk [0]) (Seg.mk [0])).length
      = 5000 + (Seg.mk [0] : Seg).length + (Seg.mk [0] : Seg).length + 2500 + 3000 :=
  C1_compose_duration_exact _ _ _
    (by simp only [Seg.length, List.length_replicate, List.length_cons, List.length_nil]
        norm_num)
    (by simp [Seg.length]) (by simp [Seg.length])

/-- C2 counterexample: with a constant-10000 bed and a silent (zero-sample)
swoosh, the very first output sample of the effect region differs from the
bed sample underneath it — the bed's gain at the region's first sample is
the full 10 dB attenuation, not 0 dB, so no linear fade from 0 dB down to
the attenuation exists. -/
theorem C2_counterexample :
    (process_audio (Seg.mk (List.replicate 10502 10000)) (Seg.mk [0])
        (Seg.mk [0])).samples.getD 5000 0
      ≠ (Seg.mk (List.replicate 10502 10000)).samples.getD 5000 0 := by
  have h := process_getElem?_effect (Seg.mk (List.replicate 10502 10000)) (Seg.mk [0])
    (Seg.mk [0])
    (by simp only [Seg.length, List.length_replicate, List.length_cons, List.length_nil]
        norm_num)
    0 (by simp [Seg.length])
  simp only [Nat.add_zero] at h
  have hrep : (List.replicate 10502 (10000 : ℤ)).getD 5000 0 = 10000 := by
    rw [List.getD_eq_getElem?_getD, List.getElem?_replicate]
    norm_num
  have hf0 := db_to_float_pos (-10)
  have hf1 := db_to_float_lt_one (-10) (by norm_num)
  have hm : mulSample (db_to_float (-10)) 10000
      = ⌊db_to_float (-10) * ((10000 : ℤ) : ℝ)⌋ := by
    unfold mulSample
    exact fbound_eq_floor _ (by push_cast; nlinarith) (by push_cast; nlinarith)
  have hm1 : 0 ≤ mulSample (db_to_float (-10)) 10000 := by
    rw [hm]
    exact Int.le_floor.mpr (by push_cast; nlinarith)
  have hm2 : mulSample (db_to_float (-10)) 10000 < 10000 := by
    rw [hm]
    exact Int.floor_lt.mpr (by push_cast; nlinarith)
  rw [List.getD_eq_getElem?_getD, h, Option.getD_some]
  simp only [hrep]
  rw [show ((Seg.mk [0] : Seg).samples.getD 0 0) = 0 from rfl, mulSample_zero,
    addClamp_zero _ (by omega) (by omega)]
  omega

/-- C2 (amended): the bed underneath the effect region is attenuated by a
flat 10 dB at every millisecond of the region — with a silent effect the
output there is exactly the 10 dB-attenuated bed sample, including at the
region's very first sample, so the transition from the 0 dB lead-in is a
hard level change rather than a linear fade. -/
theorem C2_amended_flat_bed_attenuation (bgm tts swoosh : Seg)
    (hbed : 5000 + swoosh.length + tts.length + 5500 ≤ bgm.length)
    (hz : ∀ x ∈ swoosh.samples, x = 0)
    (i : ℕ) (hi : i < swoosh.length) :
    (process_audio bgm tts swoosh).samples.getD (5000 + i) 0
      = mulSample (db_to_float (-10)) (bgm.samples.getD (5000 + i) 0) := by
  have h := process_getElem?_effect bgm tts swoosh hbed i hi
  rw [List.getD_eq_getElem?_getD, h, Option.getD_some]
  have hi' : i < swoosh.samples.length := hi
  have hz' : swoosh.samples.getD i 0 = 0 := by
    rw [List.getD_eq_getElem?_getD, List.getElem?_eq_getElem hi']
    exact hz _ (List.getElem_mem hi')
  rw [hz', mulSample_zero, addClamp_zero]
  · exact (fbound_mem _).1
  · exact (fbound_mem _).2

theorem C2_amended_flat_bed_attenuation_witness :
    (process_audio (Seg.mk (List.replicate 10502 10000)) (Seg.mk [0])
        (Seg.mk [0])).samples.getD (5000 + 0) 0
      = mulSample (db_to_float (-10))
          ((Seg.mk (List.replicate 10502 10000) : Seg).samples.getD (5000 + 0) 0) :=
  C2_amended_flat_bed_attenuation _ _ _
    (by simp only [Seg.length, List.length_replicate, List.length_cons, List.length_nil]
        norm_num)
    (by decide) 0 (by simp [Seg.length])

/-- C3 counterexample: a 5001 ms bed with a 1 ms effect and a 1 ms speech
clip would need 11502 ms of bed, yet composition does not fail — it
silently returns a 5001 ms buffer clamped to the bed. -/
theorem C3_counterexample :
    (process_audio (Seg.mk (List.replicate 5001 0)) (Seg.mk [0]) (Seg.mk [0])).length = 5001
      ∧ 5001 < 5000 + (Seg.mk [0] : Seg).length + (Seg.mk [0] : Seg).length + 2500 + 3000 := by
  constructor
  · have h := length_process_audio_short (Seg.mk (List.replicate 5001 0)) (Seg.mk [0])
      (Seg.mk [0])
      (by simp only [Seg.length, List.length_replicate, List.length_cons, List.length_nil]
          norm_num)
    simpa only [Seg.length, List.length_replicate] using h
  · simp [Seg.length]

/-- C3 (amended): a bed shorter than the planned regions never triggers an
error: every slice clamps silently at the end of the bed, and whenever the
bed ends no later than the planned post-roll the returned buffer is
exactly as long as the bed (truncated output, no failure). -/
theorem C3_amended_short_bed_is_clamped (bgm tts swoosh : Seg)
    (hbed : bgm.length ≤ 5000 + swoosh.length + tts.length + 2500) :
    (process_audio bgm tts swoosh).length = bgm.length :=
  length_process_audio_short bgm tts swoosh hbed

theorem C3_amended_short_bed_is_clamped_witness :
    (process_audio (Seg.mk (List.replicate 5001 0)) (Seg.mk [0]) (Seg.mk [0])).length
      = (Seg.mk (List.replicate 5001 0) : Seg).length :=
  C3_amended_short_bed_is_clamped _ _ _
    (by simp only [Seg.length, List.length_replicate, List.length_cons, List.length_nil]
        norm_num)

/-- C4 counterexample: overlaying a 4 ms top onto a 2 ms base at offset 0
(so start_offset_ms + duration(top) = 4 > 2 = duration(base)) does not
fail with any error — the top is silently truncated and a 2 ms mixed
buffer is returned. -/
theorem C4_counterexample :
    Seg.overlay (Seg.mk [100, -100]) (Seg.mk [50, 50, 50, 50]) 0 = Seg.mk [150, -50] := by
  decide

/-- C4 (amended): overlay is total — it never fails; a top reaching past
the base is silently truncated to what fits, and for every base, top and
offset the merged buffer's length equals the base's length (overlay never
extends the timeline). -/
theorem C4_amended_overlay_total (base top : Seg) (pos : ℕ) :
    (base.overlay top pos).length = base.length :=
  Seg.length_overlay base top pos

/-- C5 counterexample: on a zero-length buffer, gain application and the
fade-out both silently return the zero-length buffer as a no-op; no
EmptyBufferError is raised anywhere. -/
theorem C5_counterexample :
    (Seg.mk []).applyGain (-10) = Seg.mk [] ∧ (Seg.mk []).fade_out 3000 = Seg.mk [] :=
  ⟨rfl, Seg.fade_out_nil 3000⟩

/-- C5 (amended): apply_gain and fade_out are pure and total over every
buffer including the empty one: gain preserves the buffer length, and on a
zero-length buffer both operations return the zero-length buffer unchanged
(a silent no-op) instead of failing. -/
theorem C5_amended_gain_fade_total (db : ℝ) (d : ℕ) (s : Seg) :
    (s.applyGain db).length = s.length
      ∧ (Seg.mk []).applyGain db = Seg.mk []
      ∧ (Seg.mk []).fade_out d = Seg.mk [] :=
  ⟨Seg.length_applyGain s db, rfl, Seg.fade_out_nil d⟩

/-- C6 counterexample: with the effect input absent, the code does not
compose an effect-free opening of duration lead_in + speech + post_roll +
fade_out — decoding the missing effect raises, the blanket except catches
it, and None is returned: there is no composed output at all. -/
theorem C6_counterexample :
    process_audio_files (some (Seg.mk (List.replicate 10502 0))) (some (Seg.mk [0])) none
      = none := rfl

/-- C6 (amended): the transition effect is a required input of the active
composition: whenever it is absent the whole call yields None (no buffer
of any duration is produced); there is no plan that omits the effect
region. -/
theorem C6_amended_effect_required (bgm tts : Option Seg) :
    process_audio_files bgm tts none = none := by
  cases bgm <;> cases tts <;> rfl

/-- C7: planning is deterministic — the implicit timeline plan is a pure
function of the input lengths and the fixed recipe constants, and two
calls on identical inputs return identical plans and identical composed
buffers (no randomness, no wall-clock dependence). -/
theorem C7_plan_deterministic (b t s b' t' s' : Seg)
    (hb : b = b') (ht : t = t') (hs : s = s') :
    plan_offsets s.length t.length = plan_offsets s'.length t'.length
      ∧ process_audio b t s = process_audio b' t' s' := by
  subst hb; subst ht; subst hs
  exact ⟨rfl, rfl⟩

theorem C7_plan_deterministic_witness :
    plan_offsets (Seg.mk [0] : Seg).length (Seg.mk [1] : Seg).length
        = plan_offsets (Seg.mk [0] : Seg).length (Seg.mk [1] : Seg).length
      ∧ process_audio (Seg.mk [2]) (Seg.mk [1]) (Seg.mk [0])
        = process_audio (Seg.mk [2]) (Seg.mk [1]) (Seg.mk [0]) :=
  C7_plan_deterministic _ _ _ _ _ _ rfl rfl rfl

/-- C8: gain composes additively in dB up to audioop's floor rounding —
on every sample of a well-formed (16-bit) buffer, applying -10 dB twice
agrees with applying -20 dB once to within one least-significant amplitude
step (the floating-rounding tolerance of the integer sample format). -/
theorem C8_gain_additive_within_rounding (b : Seg) (hwf : b.wf) (i : ℕ) :
    |((b.applyGain (-10)).applyGain (-10)).samples.getD i 0
      - (b.applyGain (-20)).samples.getD i 0| ≤ 1 := by
  by_cases hi : i < b.samples.length
  · obtain ⟨x, hx⟩ : ∃ x, b.samples[i]? = some x := ⟨_, List.getElem?_eq_getElem hi⟩
    have hA : ((b.applyGain (-10)).applyGain (-10)).samples[i]?
        = some (mulSample (db_to_float (-10)) (mulSample (db_to_float (-10)) x)) := by
      rw [Seg.applyGain_samples, Seg.applyGain_samples, List.getElem?_map,
        List.getElem?_map, hx]
      rfl
    have hB : (b.applyGain (-20)).samples[i]?
        = some (mulSample (db_to_float (-20)) x) := by
      rw [Seg.applyGain_samples, List.getElem?_map, hx]
      rfl
    have hA' : ((b.applyGain (-10)).applyGain (-10)).samples.getD i 0
        = mulSample (db_to_float (-10)) (mulSample (db_to_float (-10)) x) := by
      rw [List.getD_eq_getElem?_getD, hA]
      rfl
    have hB' : (b.applyGain (-20)).samples.getD i 0
        = mulSample (db_to_float (-20)) x := by
      rw [List.getD_eq_getElem?_getD, hB]
      rfl
    rw [hA', hB']
    obtain ⟨hv1, hv2⟩ := hwf x (List.getElem?_mem hx)
    exact mulSample_twice_close _ hv1 hv2
  · have l1 : ((b.applyGain (-10)).applyGain (-10)).samples.length ≤ i := by
      simp only [Seg.applyGain_samples, List.length_map]
      omega
    have l2 : (b.applyGain (-20)).samples.length ≤ i := by
      simp only [Seg.applyGain_samples, List.length_map]
      omega
    rw [List.getD_eq_default _ _ l1, List.getD_eq_default _ _ l2]
    norm_num

theorem C8_gain_additive_within_rounding_witness :
    Seg.wf (Seg.mk [1000])
      ∧ |(((Seg.mk [1000] : Seg).applyGain (-10)).applyGain (-10)).samples.getD 0 0
          - ((Seg.mk [1000] : Seg).applyGain (-20)).samples.getD 0 0| ≤ 1 :=
  ⟨by decide, C8_gain_additive_within_rounding (Seg.mk [1000]) (by decide) 0⟩

/-- C9: the speech buffer is overlaid onto the attenuated bed unmodified —
in the speech region the output sample equals the saturating sum of the
10 dB-attenuated bed sample and the original, untouched TTS sample (no
gain, attenuation or fade is applied to the speech itself). -/
theorem C9_speech_overlaid_unmodified (bgm tts swoosh : Seg)
    (hbed : 5000 + swoosh.length + tts.length + 5500 ≤ bgm.length)
    (i : ℕ) (hi : i < tts.length) :
    (process_audio bgm tts swoosh).samples.getD (5000 + swoosh.length + i) 0
      = addClamp (mulSample (db_to_float (-10))
            (bgm.samples.getD (5000 + swoosh.length + i) 0))
          (tts.samples.getD i 0) := by
  have h := process_getElem?_speech bgm tts swoosh hbed i hi
  rw [List.getD_eq_getElem?_getD, h, Option.getD_some]

theorem C9_speech_overlaid_unmodified_witness :
    (process_audio (Seg.mk (List.replicate 10502 0)) (Seg.mk [7])
        (Seg.mk [0])).samples.getD (5000 + (Seg.mk [0] : Seg).length + 0) 0
      = addClamp (mulSample (db_to_float (-10))
            ((Seg.mk (List.replicate 10502 0) : Seg).samples.getD
              (5000 + (Seg.mk [0] : Seg).length + 0) 0))
          ((Seg.mk [7] : Seg).samples.getD 0 0) :=
  C9_speech_overlaid_unmodified _ _ _
    (by simp only [Seg.length, List.length_replicate, List.length_cons, List.length_nil]
        norm_num)
    0 (by simp [Seg.length])

/-- C10: before being overlaid onto the bed, the transition effect is
always attenuated by exactly 5 dB — in the effect region the output sample
is the saturating sum of the 10 dB-attenuated bed sample and the swoosh
sample scaled by db_to_float (-5). -/
theorem C10_effect_attenuated_exactly_5db (bgm tts swoosh : Seg)
    (hbed : 5000 + swoosh.length + tts.length + 5500 ≤ bgm.length)
    (i : ℕ) (hi : i < swoosh.length) :
    (process_audio bgm tts swoosh).samples.getD (5000 + i) 0
      = addClamp (mulSample (db_to_float (-10)) (bgm.samples.getD (5000 + i) 0))
          (mulSample (db_to_float (-5)) (swoosh.samples.getD i 0)) := by
  have h := process_getElem?_effect bgm tts swoosh hbed i hi
  rw [List.getD_eq_getElem?_getD, h, Option.getD_some]

theorem C10_effect_attenuated_exactly_5db_witness :
    (process_audio (Seg.mk (List.replicate 10502 0)) (Seg.mk [0])
        (Seg.mk [9])).samples.getD (5000 + 0) 0
      = addClamp (mulSample (db_to_float (-10))
            ((Seg.mk (List.replicate 10502 0) : Seg).samples.getD (5000 + 0) 0))
          (mulSample (db_to_float (-5)) ((Seg.mk [9] : Seg).samples.getD 0 0)) :=
  C10_effect_attenuated_exactly_5db _ _ _
    (by simp only [Seg.length, List.length_replicate, List.length_cons, List.length_nil]
        norm_num)
    0 (by simp [Seg.length])
